import Mathlib

/-!
Shallow embedding of the OSM-EU-Municipalities chunked boundary pipeline.

The repository has three scripts:
* `belgium_municipalities.py` — the non-strict chunked pipeline (`runNS` below):
  fetch state chunks, and per chunk: fetch features, drop already-seen OSM ids,
  keep polygonal geometries, project columns, append to the GeoPackage.
* `test2.py` — the strict chunked pipeline (`runStrict` below): additionally
  fetches the country boundary up front and, per chunk, filters by exact
  admin-level equality and by geometric containment in the country boundary.
* `Test.py` — a one-shot, non-chunked script (`testScriptRun` below).

External collaborators (the OSM fetcher, the geometric `within` predicate and
the file writer) are modelled as oracle inputs: fetches return
`Except String Batch`, geometries are opaque `Nat` tokens with an abstract
boolean `within` relation, and a write either succeeds or raises.
-/

/-- One administrative-boundary record, as a row of the fetched GeoDataFrame.
`id` models the OSM index (the dedup key); `name` and `adminLevel` model the
correspondingly named attribute columns (`none` = missing value / NaN);
`geomType` and `geom` model the geometry column; `extra` models all other
passthrough attribute values. -/
structure Feature where
  id : String
  name : Option String
  adminLevel : Option String
  geomType : String
  geom : Nat
  extra : List (String × String)
deriving DecidableEq

/-- A batch of features together with the attribute columns the frame carries
(pandas columns are frame-level: a column can be absent altogether). -/
structure Batch where
  cols : List String
  feats : List Feature
deriving DecidableEq

/-- A chunk region (one state): `states.itertuples()` row. -/
structure Chunk where
  name : String
  geom : Nat
deriving DecidableEq

/-- One `to_file` call: its mode (`"w"` or `"a"`), layer name and batch. -/
structure WriteRec where
  mode : String
  layer : String
  batch : Batch
deriving DecidableEq

/-- The external world of one run: the country-boundary geocode result, the
state-chunk fetch result, the per-chunk feature fetch, and whether the i-th
chunk's `to_file` call succeeds. -/
structure Oracle where
  boundary : Except String Nat
  chunks : Except String (List Chunk)
  fetchChunk : Nat → Except String Batch
  writeOk : Nat → Bool

/-- The mutable state of a run: the dedup set `processed_osm_ids`, the running
total `total_municipalities_saved`, the sequence of writes performed on the
output file, and the console log. -/
structure RunState where
  seen : Finset String
  total : Nat
  writes : List WriteRec
  log : List String
deriving DecidableEq

def placeName : String := "Germany"

def chunkAdminLevel : String := "4"

def targetAdminLevel : String := "8"

/-- Layer passed to `to_file`: `f"{place_name.lower()}_municipalities"` with
the lower-casing of `"Germany"` carried out. -/
def layerName : String := "germany" ++ "_municipalities"

/-- Output path: `f"{place_name.lower()}_municipalities_admin{target}.gpkg"`
with the lower-casing of `"Germany"` carried out. -/
def outputPath : String :=
  "germany" ++ "_municipalities_admin" ++ targetAdminLevel ++ ".gpkg"

/-- `municipalities_chunk[~municipalities_chunk.index.isin(processed_osm_ids)]`. -/
def noveltyFilter (seen : Finset String) (b : Batch) : Batch :=
  { b with feats := b.feats.filter (fun f => decide (f.id ∉ seen)) }

/-- `municipalities_chunk[municipalities_chunk.geometry.type.isin(['Polygon', 'MultiPolygon'])]`. -/
def geomTypeFilter (b : Batch) : Batch :=
  { b with feats :=
      b.feats.filter (fun f => f.geomType == "Polygon" || f.geomType == "MultiPolygon") }

/-- `columns_to_keep = ['name', 'geometry', 'admin_level']`. -/
def keepColsList : List String := ["name", "geometry", "admin_level"]

/-- Effect of column selection on a single row: attribute values of dropped
columns are gone. The id (the index) and the geometry survive selection. -/
def projectFeature (kept : List String) (f : Feature) : Feature :=
  { f with
    name := if "name" ∈ kept then f.name else none
    adminLevel := if "admin_level" ∈ kept then f.adminLevel else none
    extra := [] }

/-- `columns_in_df = [col for col in columns_to_keep if col in chunk.columns]`
followed by `chunk = chunk[columns_in_df]`. -/
def projectBatch (b : Batch) : Batch :=
  let kept := keepColsList.filter (fun c => decide (c ∈ b.cols))
  { cols := kept, feats := b.feats.map (projectFeature kept) }

/-- `municipalities_chunk[municipalities_chunk['admin_level'] == target]` as a
pure row filter (a missing value compares unequal, as NaN does in pandas). -/
def levelFilterB (target : String) (b : Batch) : Batch :=
  { b with feats := b.feats.filter (fun f => f.adminLevel == some target) }

/-- The strict level stage: subscripting `chunk['admin_level']` raises a
`KeyError` when the frame has no such column; otherwise it is the row filter. -/
def levelStage (target : String) (b : Batch) : Except String Batch :=
  if "admin_level" ∈ b.cols then .ok (levelFilterB target b)
  else .error "KeyError: admin_level"

/-- `municipalities_chunk[municipalities_chunk.geometry.within(country_geom)]`. -/
def withinFilter (within : Nat → Nat → Bool) (cg : Nat) (b : Batch) : Batch :=
  { b with feats := b.feats.filter (fun f => within f.geom cg) }

/-- Log line of the per-chunk `except` handler, naming the chunk. -/
def errLine (name e : String) : String :=
  "  An error occurred while processing " ++ name ++ ": " ++ e

def skipMsg : String := "  Skipping this chunk."

def initState : RunState := { seen := ∅, total := 0, writes := [], log := [] }

/-- Final banner of `belgium_municipalities.py` / `test2.py`. -/
def summaryLines (total : Nat) : List String :=
  ["Processing complete.",
   "Total unique municipalities saved: " ++ toString total,
   "Data saved to: " ++ outputPath]

/-- One iteration of the chunk loop of `belgium_municipalities.py`
(lines 57–115): fetch, drop previously saved ids, keep polygonal geometries,
project the columns, write with mode `'a' if total > 0 else 'w'`, then update
the dedup set and the running total; any raised error is caught, logged with
the chunk's name, and the chunk is skipped. -/
def processChunkNS (oracle : Oracle) (i : Nat) (ch : Chunk) (st : RunState) : RunState :=
  match oracle.fetchChunk i with
  | .error e => { st with log := st.log ++ [errLine ch.name e, skipMsg] }
  | .ok b0 =>
    let b1 := if b0.feats.isEmpty then b0 else noveltyFilter st.seen b0
    if b1.feats.isEmpty then
      { st with log := st.log ++
          ["  No new municipalities to process for " ++ ch.name ++ "."] }
    else
      let b3 := projectBatch (geomTypeFilter b1)
      if b3.feats.isEmpty then
        { st with log := st.log ++
            ["  No valid municipality polygons left after filtering for " ++ ch.name ++ "."] }
      else
        let mode := if st.total > 0 then "a" else "w"
        if oracle.writeOk i then
          { seen := st.seen ∪ (b3.feats.map (fun f => f.id)).toFinset
            total := st.total + b3.feats.length
            writes := st.writes ++ [⟨mode, layerName, b3⟩]
            log := st.log ++ ["  Successfully saved."] }
        else { st with log := st.log ++ [errLine ch.name "write failed", skipMsg] }

/-- The run of `belgium_municipalities.py`: fetch the state chunks (exiting on
failure), fold the chunk loop over them, then print the final summary. -/
def runNS (oracle : Oracle) : RunState :=
  match oracle.chunks with
  | .error e =>
      { initState with log := ["Could not download state polygons. Error: " ++ e] }
  | .ok cs =>
      let st := cs.enum.foldl (fun st p => processChunkNS oracle p.1 p.2 st) initState
      { st with log := st.log ++ summaryLines st.total }

/-- One iteration of the chunk loop of `test2.py` (lines 188–255), with the two
strict stages behind flags (`applyLevel`/`applyWithin`); `test2.py` itself is
this step with both flags true. Order: fetch, empty check, level-equality
filter, containment filter, novelty filter, empty check, geometry-type filter,
column projection, empty check, write, state update; errors are caught, logged
with the chunk's name, and the chunk is skipped. -/
def processChunkStrict (applyLevel applyWithin : Bool) (within : Nat → Nat → Bool)
    (cg : Nat) (target : String) (oracle : Oracle) (i : Nat) (ch : Chunk)
    (st : RunState) : RunState :=
  match oracle.fetchChunk i with
  | .error e => { st with log := st.log ++ [errLine ch.name e, skipMsg] }
  | .ok b0 =>
    if b0.feats.isEmpty then
      { st with log := st.log ++ ["  No features returned from OSM for this chunk."] }
    else
      match (if applyLevel then levelStage target b0 else .ok b0) with
      | .error e => { st with log := st.log ++ [errLine ch.name e, skipMsg] }
      | .ok b1 =>
        let b2 := if applyWithin then withinFilter within cg b1 else b1
        let b3 := noveltyFilter st.seen b2
        if b3.feats.isEmpty then
          { st with log := st.log ++
              ["  No new, valid municipalities to save in this chunk."] }
        else
          let b4 := projectBatch (geomTypeFilter b3)
          if b4.feats.isEmpty then
            { st with log := st.log ++ ["  No valid polygons left after final cleaning."] }
          else
            let mode := if st.total > 0 then "a" else "w"
            if oracle.writeOk i then
              { seen := st.seen ∪ (b4.feats.map (fun f => f.id)).toFinset
                total := st.total + b4.feats.length
                writes := st.writes ++ [⟨mode, layerName, b4⟩]
                log := st.log ++ ["  Successfully saved."] }
            else { st with log := st.log ++ [errLine ch.name "write failed", skipMsg] }

/-- The run of `test2.py`, with the strict stages behind flags: fetch the
country boundary (exiting on failure), fetch the state chunks (exiting on
failure), fold the chunk loop, then print the final summary. -/
def runStrictFlags (applyLevel applyWithin : Bool) (within : Nat → Nat → Bool)
    (target : String) (oracle : Oracle) : RunState :=
  match oracle.boundary with
  | .error e =>
      { initState with log :=
          ["Could not download country boundary. Cannot proceed. Error: " ++ e] }
  | .ok cg =>
    match oracle.chunks with
    | .error e =>
        { initState with log :=
            ["Could not download state polygons. Cannot proceed. Error: " ++ e] }
    | .ok cs =>
        let st := cs.enum.foldl
          (fun st p => processChunkStrict applyLevel applyWithin within cg target oracle p.1 p.2 st)
          initState
        { st with log := st.log ++ summaryLines st.total }

/-- The run of `test2.py` as written: both strict stages active. -/
def runStrict (within : Nat → Nat → Bool) (target : String) (oracle : Oracle) : RunState :=
  runStrictFlags true true within target oracle

/-- `drop_duplicates(subset='name')` of `Test.py`: keep the first row for each
`name` value (pandas treats NaN names as duplicates of each other too). -/
def dedupByNameAux : List (Option String) → List Feature → List Feature
  | _, [] => []
  | seenNames, f :: rest =>
    if f.name ∈ seenNames then dedupByNameAux seenNames rest
    else f :: dedupByNameAux (f.name :: seenNames) rest

def dedupByName (l : List Feature) : List Feature := dedupByNameAux [] l

/-- The one-shot script `Test.py`, given its two fetch results: name-dedup,
geometry-type filter, level filter (a `KeyError` propagates: the script has no
handler), containment filter against the country boundary, column projection;
the returned batch is what `to_file` writes. -/
def testScriptRun (within : Nat → Nat → Bool) (b : Batch) (boundaryGeom : Nat) :
    Except String Batch :=
  let m2 := geomTypeFilter { b with feats := dedupByName b.feats }
  match levelStage "8" m2 with
  | .error e => .error e
  | .ok m3 => .ok (projectBatch (withinFilter within boundaryGeom m3))

/-- Contents of the output container after a sequence of `to_file` calls:
mode `"w"` creates/truncates the file, mode `"a"` appends to the layer. -/
def containerFeats (ws : List WriteRec) : List Feature :=
  ws.foldl (fun acc w => if w.mode = "w" then w.batch.feats else acc ++ w.batch.feats) []

/-- Identifiers of the records currently in the output container. -/
def containerIds (ws : List WriteRec) : List String :=
  (containerFeats ws).map (fun f => f.id)

/-- The OSM index contract: any successfully fetched chunk batch carries
pairwise-distinct identifiers (the id is the frame's index). -/
def ChunkIdsNodup (oracle : Oracle) : Prop :=
  ∀ i b, oracle.fetchChunk i = .ok b → (b.feats.map (fun f => f.id)).Nodup

/-- Expected shape of the write modes of a run: the first write creates the
file, every later write appends. -/
def modesFor : Nat → List String
  | 0 => []
  | n + 1 => "w" :: List.replicate n "a"

/-- The five-stage filter pipeline at a fixed dedup-set snapshot, in the order
of `test2.py`: level filter, containment filter, novelty filter, geometry-type
filter, column projection. -/
def filterPipeline (target : String) (within : Nat → Nat → Bool) (cg : Nat)
    (seen : Finset String) (b : Batch) : Except String Batch :=
  match levelStage target b with
  | .error e => .error e
  | .ok b1 =>
      .ok (projectBatch (geomTypeFilter (noveltyFilter seen (withinFilter within cg b1))))

/-! ### Helper definitions for the proofs -/

/-- The state update performed by a successful write of batch `b` at state
`st`: write with the mode chosen from the running total, extend the dedup set
with the batch's identifiers, add the batch size to the running total. -/
def writeUpd (st : RunState) (b : Batch) : RunState :=
  { seen := st.seen ∪ (b.feats.map (fun f => f.id)).toFinset
    total := st.total + b.feats.length
    writes := st.writes ++ [⟨if st.total > 0 then "a" else "w", layerName, b⟩]
    log := st.log ++ ["  Successfully saved."] }

/-- The batch a chunk body hands to the writer in the non-strict pipeline,
as a function of the dedup snapshot and the input batch: novelty filter,
geometry-type filter, column projection. -/
def cleanedBatch (seen : Finset String) (b : Batch) : Batch :=
  projectBatch (geomTypeFilter (noveltyFilter seen b))

/-- The cross-chunk invariant carried by the dedup set: the container's
identifiers are pairwise distinct, the dedup set is exactly the set of
identifiers accepted into the output so far, and the running total is its
size. -/
def InvB (st : RunState) : Prop :=
  (containerIds st.writes).Nodup
  ∧ (containerIds st.writes).toFinset = st.seen
  ∧ st.total = st.seen.card

/-- The write-discipline invariant: the first write creates the file and every
later one appends, all writes target the fixed layer, the running total is zero
exactly while nothing has been written, and every written batch's column list
is projection-closed (a sub-selection of the three kept columns). -/
def InvA (st : RunState) : Prop :=
  st.writes.map (fun w => w.mode) = modesFor st.writes.length
  ∧ st.writes.map (fun w => w.layer) = List.replicate st.writes.length layerName
  ∧ (st.total = 0 ↔ st.writes = [])
  ∧ ∀ w ∈ st.writes, w.batch.cols = keepColsList.filter (fun c => decide (c ∈ w.batch.cols))

/-- All records currently in the output container satisfy `P`. -/
def ContainerPred (P : Feature → Prop) (st : RunState) : Prop :=
  ∀ f ∈ containerFeats st.writes, P f

/-- Observational agreement: same dedup set, same running total, same write
sequence (hence same output file contents); only the log may differ. -/
def Agrees (st1 st2 : RunState) : Prop :=
  st1.seen = st2.seen ∧ st1.total = st2.total ∧ st1.writes = st2.writes

/-! ### Concrete runs used as witnesses and counterexamples -/

/-- Containment oracle that reports every geometry as inside. -/
def wTrue : Nat → Nat → Bool := fun _ _ => true

def fullCols : List String := ["name", "geometry", "admin_level"]

def featA : Feature := ⟨"way/123", some "Alpha", some "8", "Polygon", 1, []⟩

def featB : Feature := ⟨"way/123", some "Beta", some "8", "Polygon", 2, []⟩

def featC : Feature := ⟨"way/456", some "Gamma", some "8", "MultiPolygon", 3, []⟩

def feat9 : Feature := ⟨"way/9", some "Nine", some "9", "Polygon", 5, []⟩

def featNoName : Feature := ⟨"way/77", none, some "8", "Polygon", 7, []⟩

/-- Two chunks that both contain a feature with identifier `"way/123"`. -/
def oracleDup : Oracle :=
  { boundary := .ok 0
    chunks := .ok [⟨"State A", 10⟩, ⟨"State B", 11⟩]
    fetchChunk := fun i =>
      match i with
      | 0 => .ok ⟨fullCols, [featA]⟩
      | 1 => .ok ⟨fullCols, [featB, featC]⟩
      | _ => .error "out of range"
    writeOk := fun _ => true }

/-- One chunk whose fetch returns a feature of admin level `"9"`. -/
def oracleLvl9 : Oracle :=
  { boundary := .ok 0
    chunks := .ok [⟨"State A", 10⟩]
    fetchChunk := fun i =>
      match i with
      | 0 => .ok ⟨fullCols, [feat9]⟩
      | _ => .error "out of range"
    writeOk := fun _ => true }

/-- One chunk whose fetched frame carries no `name` column. -/
def oracleNoName : Oracle :=
  { boundary := .ok 0
    chunks := .ok [⟨"State A", 10⟩]
    fetchChunk := fun i =>
      match i with
      | 0 => .ok ⟨["geometry", "admin_level"], [featNoName]⟩
      | _ => .error "out of range"
    writeOk := fun _ => true }

/-- Country-boundary geocoding fails, but the chunk data is fine. -/
def oracleBoundaryFail : Oracle :=
  { boundary := .error "timeout"
    chunks := .ok [⟨"State A", 10⟩]
    fetchChunk := fun i =>
      match i with
      | 0 => .ok ⟨fullCols, [featA]⟩
      | _ => .error "out of range"
    writeOk := fun _ => true }

/-- The chunk-region fetch itself fails. -/
def oracleFatal : Oracle :=
  { boundary := .ok 0
    chunks := .error "dns failure"
    fetchChunk := fun _ => .error "unreachable"
    writeOk := fun _ => true }

/-- Fetching chunk 0's features fails. -/
def oracleFetchErr : Oracle :=
  { boundary := .ok 0
    chunks := .ok [⟨"Bavaria", 10⟩]
    fetchChunk := fun _ => .error "connection reset"
    writeOk := fun _ => true }

/-- The chunk data is fine but every `to_file` call fails. -/
def oracleWriteFail : Oracle :=
  { boundary := .ok 0
    chunks := .ok [⟨"State A", 10⟩]
    fetchChunk := fun i =>
      match i with
      | 0 => .ok ⟨fullCols, [featA]⟩
      | _ => .error "out of range"
    writeOk := fun _ => false }

/-! ### Small stage lemmas -/

theorem noveltyFilter_cols (seen : Finset String) (b : Batch) :
    (noveltyFilter seen b).cols = b.cols := rfl

theorem geomTypeFilter_cols (b : Batch) : (geomTypeFilter b).cols = b.cols := rfl

theorem withinFilter_cols (w : Nat → Nat → Bool) (cg : Nat) (b : Batch) :
    (withinFilter w cg b).cols = b.cols := rfl

theorem levelFilterB_cols (t : String) (b : Batch) : (levelFilterB t b).cols = b.cols := rfl

theorem projectFeature_id (kept : List String) (f : Feature) :
    (projectFeature kept f).id = f.id := rfl

theorem projectFeature_geom (kept : List String) (f : Feature) :
    (projectFeature kept f).geom = f.geom := rfl

theorem projectFeature_geomType (kept : List String) (f : Feature) :
    (projectFeature kept f).geomType = f.geomType := rfl

theorem mem_projectBatch {b : Batch} {f : Feature} :
    f ∈ (projectBatch b).feats ↔
      ∃ y ∈ b.feats,
        f = projectFeature (keepColsList.filter (fun c => decide (c ∈ b.cols))) y := by
  simp only [projectBatch, List.mem_map]
  constructor
  · rintro ⟨y, hy, rfl⟩; exact ⟨y, hy, rfl⟩
  · rintro ⟨y, hy, rfl⟩; exact ⟨y, hy, rfl⟩

theorem mem_noveltyFilter {seen : Finset String} {b : Batch} {f : Feature} :
    f ∈ (noveltyFilter seen b).feats ↔ f ∈ b.feats ∧ f.id ∉ seen := by
  simp [noveltyFilter, List.mem_filter]

theorem mem_geomTypeFilter {b : Batch} {f : Feature} :
    f ∈ (geomTypeFilter b).feats ↔
      f ∈ b.feats ∧ (f.geomType = "Polygon" ∨ f.geomType = "MultiPolygon") := by
  simp [geomTypeFilter, List.mem_filter]

theorem mem_withinFilter {w : Nat → Nat → Bool} {cg : Nat} {b : Batch} {f : Feature} :
    f ∈ (withinFilter w cg b).feats ↔ f ∈ b.feats ∧ w f.geom cg = true := by
  simp [withinFilter, List.mem_filter]

theorem mem_levelFilterB {t : String} {b : Batch} {f : Feature} :
    f ∈ (levelFilterB t b).feats ↔ f ∈ b.feats ∧ f.adminLevel = some t := by
  simp [levelFilterB, List.mem_filter]

/-- The identifiers of a cleaned batch form a sublist of the input batch's
identifiers (filters only drop rows, projection keeps the index). -/
theorem cleanedBatch_ids_sublist (seen : Finset String) (b : Batch) :
    ((cleanedBatch seen b).feats.map (fun f => f.id)).Sublist
      (b.feats.map (fun f => f.id)) := by
  unfold cleanedBatch projectBatch
  simp only [List.map_map]
  have h1 : ((geomTypeFilter (noveltyFilter seen b)).feats).Sublist b.feats := by
    unfold geomTypeFilter noveltyFilter
    exact (List.filter_sublist _).trans (List.filter_sublist _)
  have h2 : (fun f => f.id) ∘
      projectFeature (keepColsList.filter (fun c => decide (c ∈ (geomTypeFilter (noveltyFilter seen b)).cols))) =
      (fun f : Feature => f.id) := rfl
  rw [h2]
  exact h1.map _

/-- Every record in a cleaned batch is novel with respect to the snapshot. -/
theorem cleanedBatch_not_seen {seen : Finset String} {b : Batch} {f : Feature}
    (h : f ∈ (cleanedBatch seen b).feats) : f.id ∉ seen := by
  unfold cleanedBatch at h
  rcases mem_projectBatch.mp h with ⟨y, hy, rfl⟩
  rw [projectFeature_id]
  exact (mem_noveltyFilter.mp (mem_geomTypeFilter.mp hy).1).2

/-- Every record in a cleaned batch has polygonal geometry type. -/
theorem cleanedBatch_geomType {seen : Finset String} {b : Batch} {f : Feature}
    (h : f ∈ (cleanedBatch seen b).feats) :
    f.geomType = "Polygon" ∨ f.geomType = "MultiPolygon" := by
  unfold cleanedBatch at h
  rcases mem_projectBatch.mp h with ⟨y, hy, rfl⟩
  rw [projectFeature_geomType]
  exact (mem_geomTypeFilter.mp hy).2

/-! ### Generic fold lemmas -/

theorem foldl_preserve {α σ : Type} (P : σ → Prop) (f : σ → α → σ)
    (hstep : ∀ s a, P s → P (f s a)) :
    ∀ (l : List α) (s : σ), P s → P (l.foldl f s) := by
  intro l
  induction l with
  | nil => intro s hs; exact hs
  | cons a l ih => intro s hs; exact ih (f s a) (hstep s a hs)

theorem foldl_rel {α σ τ : Type} (R : σ → τ → Prop) (f : σ → α → σ) (g : τ → α → τ)
    (hstep : ∀ s t a, R s t → R (f s a) (g t a)) :
    ∀ (l : List α) (s : σ) (t : τ), R s t → R (l.foldl f s) (l.foldl g t) := by
  intro l
  induction l with
  | nil => intro s t h; exact h
  | cons a l ih => intro s t h; exact ih (f s a) (g t a) (hstep s t a h)

theorem containerFeats_append (ws : List WriteRec) (w : WriteRec) :
    containerFeats (ws ++ [w]) =
      if w.mode = "w" then w.batch.feats else containerFeats ws ++ w.batch.feats := by
  unfold containerFeats
  rw [List.foldl_append]
  rfl

/-! ### Per-chunk case dichotomies -/

theorem processChunkNS_shape (oracle : Oracle) (i : Nat) (ch : Chunk) (st : RunState) :
    (∃ ls, processChunkNS oracle i ch st = { st with log := st.log ++ ls })
  ∨ ∃ b0, oracle.fetchChunk i = .ok b0
      ∧ oracle.writeOk i = true
      ∧ (cleanedBatch st.seen b0).feats ≠ []
      ∧ processChunkNS oracle i ch st = writeUpd st (cleanedBatch st.seen b0) := by
  unfold processChunkNS
  cases hf : oracle.fetchChunk i with
  | error e => exact Or.inl ⟨[errLine ch.name e, skipMsg], rfl⟩
  | ok b0 =>
    dsimp only
    by_cases h0 : b0.feats.isEmpty = true
    · rw [if_pos h0, if_pos h0]
      exact Or.inl ⟨_, rfl⟩
    · rw [if_neg h0]
      by_cases h1 : (noveltyFilter st.seen b0).feats.isEmpty = true
      · rw [if_pos h1]
        exact Or.inl ⟨_, rfl⟩
      · rw [if_neg h1]
        by_cases h3 : (projectBatch (geomTypeFilter (noveltyFilter st.seen b0))).feats.isEmpty = true
        · rw [if_pos h3]
          exact Or.inl ⟨_, rfl⟩
        · rw [if_neg h3]
          by_cases hw : oracle.writeOk i = true
          · rw [if_pos hw]
            refine Or.inr ⟨b0, rfl, hw, ?_, rfl⟩
            intro hnil
            exact h3 (by simp [cleanedBatch] at hnil ⊢; exact hnil)
          · rw [if_neg hw]
            exact Or.inl ⟨_, rfl⟩

theorem processChunkStrict_shape (al aw : Bool) (w : Nat → Nat → Bool) (cg : Nat)
    (t : String) (oracle : Oracle) (i : Nat) (ch : Chunk) (st : RunState) :
    (∃ ls, processChunkStrict al aw w cg t oracle i ch st = { st with log := st.log ++ ls })
  ∨ ∃ b0 b1, oracle.fetchChunk i = .ok b0
      ∧ (if al then levelStage t b0 else .ok b0) = .ok b1
      ∧ oracle.writeOk i = true
      ∧ (cleanedBatch st.seen (if aw then withinFilter w cg b1 else b1)).feats ≠ []
      ∧ processChunkStrict al aw w cg t oracle i ch st =
          writeUpd st (cleanedBatch st.seen (if aw then withinFilter w cg b1 else b1)) := by
  unfold processChunkStrict
  cases hf : oracle.fetchChunk i with
  | error e => exact Or.inl ⟨[errLine ch.name e, skipMsg], rfl⟩
  | ok b0 =>
    dsimp only
    by_cases h0 : b0.feats.isEmpty = true
    · rw [if_pos h0]
      exact Or.inl ⟨_, rfl⟩
    · rw [if_neg h0]
      cases hl : (if al then levelStage t b0 else .ok b0) with
      | error e => exact Or.inl ⟨[errLine ch.name e, skipMsg], rfl⟩
      | ok b1 =>
        dsimp only
        by_cases h3 : (noveltyFilter st.seen (if aw then withinFilter w cg b1 else b1)).feats.isEmpty = true
        · rw [if_pos h3]
          exact Or.inl ⟨_, rfl⟩
        · rw [if_neg h3]
          by_cases h4 : (projectBatch (geomTypeFilter (noveltyFilter st.seen (if aw then withinFilter w cg b1 else b1)))).feats.isEmpty = true
          · rw [if_pos h4]
            exact Or.inl ⟨_, rfl⟩
          · rw [if_neg h4]
            by_cases hw : oracle.writeOk i = true
            · rw [if_pos hw]
              refine Or.inr ⟨b0, b1, rfl, hl, hw, ?_, rfl⟩
              intro hnil
              exact h4 (by simp [cleanedBatch] at hnil ⊢; exact hnil)
            · rw [if_neg hw]
              exact Or.inl ⟨_, rfl⟩

/-! ### Run-level preservation combinators -/

theorem runNS_preserve (oracle : Oracle) (P : RunState → Prop) (hinit : P initState)
    (hlog : ∀ st ls, P st → P { st with log := st.log ++ ls })
    (hstep : ∀ i ch st, P st → P (processChunkNS oracle i ch st)) :
    P (runNS oracle) := by
  unfold runNS
  cases oracle.chunks with
  | error e => exact hlog initState _ hinit
  | ok cs =>
    dsimp only
    exact hlog _ _ (foldl_preserve P _ (fun s a h => hstep a.1 a.2 s h) cs.enum initState hinit)

theorem runStrictFlags_preserve (al aw : Bool) (w : Nat → Nat → Bool) (t : String)
    (oracle : Oracle) (P : RunState → Prop) (hinit : P initState)
    (hlog : ∀ st ls, P st → P { st with log := st.log ++ ls })
    (hstep : ∀ cg i ch st, P st → P (processChunkStrict al aw w cg t oracle i ch st)) :
    P (runStrictFlags al aw w t oracle) := by
  unfold runStrictFlags
  cases oracle.boundary with
  | error e => exact hlog initState _ hinit
  | ok cg =>
    dsimp only
    cases oracle.chunks with
    | error e => exact hlog initState _ hinit
    | ok cs =>
      dsimp only
      exact hlog _ _
        (foldl_preserve P _ (fun s a h => hstep cg a.1 a.2 s h) cs.enum initState hinit)

/-! ### Dedup-set invariant -/

theorem withinFilter_ids_sublist (w : Nat → Nat → Bool) (cg : Nat) (b : Batch) :
    ((withinFilter w cg b).feats.map (fun f => f.id)).Sublist
      (b.feats.map (fun f => f.id)) :=
  (List.filter_sublist _).map _

theorem levelStage_ok {t : String} {b0 b1 : Batch} (h : levelStage t b0 = .ok b1) :
    "admin_level" ∈ b0.cols ∧ b1 = levelFilterB t b0 := by
  unfold levelStage at h
  split at h
  · next hc => injection h with h2; exact ⟨hc, h2.symm⟩
  · exact Except.noConfusion h

theorem levelStage_ids_sublist {t : String} {b0 b1 : Batch} (h : levelStage t b0 = .ok b1) :
    (b1.feats.map (fun f => f.id)).Sublist (b0.feats.map (fun f => f.id)) := by
  rcases levelStage_ok h with ⟨-, rfl⟩
  exact (List.filter_sublist _).map _

theorem cleanedBatch_ids_nodup {seen : Finset String} {b : Batch}
    (h : (b.feats.map (fun f => f.id)).Nodup) :
    ((cleanedBatch seen b).feats.map (fun f => f.id)).Nodup :=
  h.sublist (cleanedBatch_ids_sublist seen b)

theorem writeUpd_seen (st : RunState) (b : Batch) :
    (writeUpd st b).seen = st.seen ∪ (b.feats.map (fun f => f.id)).toFinset := rfl

theorem writeUpd_total (st : RunState) (b : Batch) :
    (writeUpd st b).total = st.total + b.feats.length := rfl

theorem writeUpd_writes (st : RunState) (b : Batch) :
    (writeUpd st b).writes =
      st.writes ++ [⟨if st.total > 0 then "a" else "w", layerName, b⟩] := rfl

theorem containerFeats_append_a (ws : List WriteRec) (l : String) (b : Batch) :
    containerFeats (ws ++ [⟨"a", l, b⟩]) = containerFeats ws ++ b.feats := by
  rw [containerFeats_append]
  rfl

theorem containerFeats_append_w (ws : List WriteRec) (l : String) (b : Batch) :
    containerFeats (ws ++ [⟨"w", l, b⟩]) = b.feats := by
  rw [containerFeats_append]
  rfl

theorem writeUpd_InvB {st : RunState} {b : Batch} (hB : InvB st)
    (hnodup : (b.feats.map (fun f => f.id)).Nodup)
    (hnovel : ∀ f ∈ b.feats, f.id ∉ st.seen) : InvB (writeUpd st b) := by
  obtain ⟨hnd, hts, hcard⟩ := hB
  have hdisj : ∀ x ∈ containerIds st.writes, x ∉ b.feats.map (fun f => f.id) := by
    intro x hx hxb
    rcases List.mem_map.mp hxb with ⟨f, hfb, rfl⟩
    exact hnovel f hfb (hts ▸ List.mem_toFinset.mpr hx)
  have hdisjF : Disjoint st.seen (b.feats.map (fun f => f.id)).toFinset := by
    rw [Finset.disjoint_left]
    intro a ha hab
    rcases List.mem_map.mp (List.mem_toFinset.mp hab) with ⟨f, hfb, rfl⟩
    exact hnovel f hfb ha
  unfold containerIds at hnd hts hdisj
  unfold InvB containerIds
  rw [writeUpd_writes, writeUpd_seen, writeUpd_total]
  by_cases ht : st.total > 0
  · rw [if_pos ht, containerFeats_append_a]
    refine ⟨?_, ?_, ?_⟩
    · rw [List.map_append]
      exact List.Nodup.append hnd hnodup (fun x hx => hdisj x hx)
    · rw [List.map_append, List.toFinset_append, hts]
    · rw [Finset.card_union_of_disjoint hdisjF, ← hcard,
        List.toFinset_card_of_nodup hnodup, List.length_map]
  · rw [if_neg ht, containerFeats_append_w]
    have ht0 : st.total = 0 := Nat.eq_zero_of_not_pos ht
    have hseen : st.seen = ∅ := Finset.card_eq_zero.mp (by rw [← hcard, ht0])
    refine ⟨hnodup, ?_, ?_⟩
    · rw [hseen, Finset.empty_union]
    · rw [hseen, Finset.empty_union, ht0,
        List.toFinset_card_of_nodup hnodup, List.length_map]
      simp

theorem processChunkNS_InvB (oracle : Oracle) (hN : ChunkIdsNodup oracle)
    (i : Nat) (ch : Chunk) (st : RunState) (h : InvB st) :
    InvB (processChunkNS oracle i ch st) := by
  rcases processChunkNS_shape oracle i ch st with ⟨ls, heq⟩ | ⟨b0, hf, hw, hne, heq⟩
  · rw [heq]; exact h
  · rw [heq]
    exact writeUpd_InvB h (cleanedBatch_ids_nodup (hN i b0 hf))
      (fun f hf' => cleanedBatch_not_seen hf')

theorem processChunkStrict_InvB (al aw : Bool) (w : Nat → Nat → Bool) (cg : Nat)
    (t : String) (oracle : Oracle) (hN : ChunkIdsNodup oracle)
    (i : Nat) (ch : Chunk) (st : RunState) (h : InvB st) :
    InvB (processChunkStrict al aw w cg t oracle i ch st) := by
  rcases processChunkStrict_shape al aw w cg t oracle i ch st with
    ⟨ls, heq⟩ | ⟨b0, b1, hf, hl, hw, hne, heq⟩
  · rw [heq]; exact h
  · rw [heq]
    have h0 := hN i b0 hf
    have h1 : (b1.feats.map (fun f => f.id)).Sublist (b0.feats.map (fun f => f.id)) := by
      cases al with
      | true => exact levelStage_ids_sublist (by simpa using hl)
      | false => simp at hl; rw [← hl]
    have h2 : (((if aw then withinFilter w cg b1 else b1) : Batch).feats.map
        (fun f => f.id)).Sublist (b1.feats.map (fun f => f.id)) := by
      cases aw with
      | true => simpa using withinFilter_ids_sublist w cg b1
      | false => simp
    exact writeUpd_InvB h (cleanedBatch_ids_nodup (h0.sublist (h2.trans h1)))
      (fun f hf' => cleanedBatch_not_seen hf')

theorem initState_InvB : InvB initState := by
  refine ⟨?_, ?_, ?_⟩ <;> simp [InvB, containerIds, containerFeats, initState]

theorem runNS_InvB (oracle : Oracle) (hN : ChunkIdsNodup oracle) : InvB (runNS oracle) :=
  runNS_preserve oracle InvB initState_InvB (fun _ _ h => h)
    (fun i ch st h => processChunkNS_InvB oracle hN i ch st h)

theorem runStrictFlags_InvB (al aw : Bool) (w : Nat → Nat → Bool) (t : String)
    (oracle : Oracle) (hN : ChunkIdsNodup oracle) :
    InvB (runStrictFlags al aw w t oracle) :=
  runStrictFlags_preserve al aw w t oracle InvB initState_InvB (fun _ _ h => h)
    (fun cg i ch st h => processChunkStrict_InvB al aw w cg t oracle hN i ch st h)

/-! ### Write-mode, layer and column invariant -/

theorem filter_mem_filter (l s : List String) :
    l.filter (fun c => decide (c ∈ l.filter (fun c => decide (c ∈ s)))) =
      l.filter (fun c => decide (c ∈ s)) := by
  apply List.filter_congr
  intro c hc
  simp [List.mem_filter, hc]

theorem cleanedBatch_cols (seen : Finset String) (b : Batch) :
    (cleanedBatch seen b).cols = keepColsList.filter (fun c => decide (c ∈ b.cols)) := rfl

theorem cleanedBatch_cols_fix (seen : Finset String) (b : Batch) :
    (cleanedBatch seen b).cols =
      keepColsList.filter (fun c => decide (c ∈ (cleanedBatch seen b).cols)) := by
  rw [cleanedBatch_cols]
  exact (filter_mem_filter keepColsList b.cols).symm

theorem modesFor_succ_of_pos {n : Nat} (h : 0 < n) :
    modesFor n ++ ["a"] = modesFor (n + 1) := by
  cases n with
  | zero => exact absurd h (by simp)
  | succ m =>
    show ("w" :: List.replicate m "a") ++ ["a"] = "w" :: List.replicate (m + 1) "a"
    rw [List.replicate_succ']
    simp

theorem writeUpd_InvA {st : RunState} {b : Batch} (hA : InvA st) (hne : b.feats ≠ [])
    (hcols : b.cols = keepColsList.filter (fun c => decide (c ∈ b.cols))) :
    InvA (writeUpd st b) := by
  obtain ⟨hm, hl, ht, hc⟩ := hA
  have hlen : 0 < b.feats.length := List.length_pos.mpr hne
  unfold InvA
  rw [writeUpd_writes, writeUpd_total]
  by_cases h0 : st.total = 0
  · have hwnil : st.writes = [] := ht.mp h0
    rw [if_neg (by simp [h0])]
    rw [hwnil]
    refine ⟨rfl, rfl, ?_, ?_⟩
    · rw [h0]
      constructor
      · intro habs
        exact absurd habs (by omega)
      · intro habs
        exact absurd habs (by simp)
    · intro w hw
      rcases List.mem_singleton.mp hw with rfl
      exact hcols
  · have hpos : 0 < st.total := Nat.pos_of_ne_zero h0
    rw [if_pos hpos]
    have hwne : st.writes ≠ [] := fun hnil => h0 (ht.mpr hnil)
    refine ⟨?_, ?_, ?_, ?_⟩
    · rw [List.map_append, hm, List.length_append]
      simpa using modesFor_succ_of_pos (List.length_pos.mpr hwne)
    · rw [List.map_append, hl, List.length_append]
      simp [List.replicate_succ']
    · constructor
      · intro habs
        exact absurd habs (by omega)
      · intro habs
        exact absurd habs (by simp)
    · intro w hw
      rcases List.mem_append.mp hw with h | h
      · exact hc w h
      · rcases List.mem_singleton.mp h with rfl
        exact hcols

theorem processChunkNS_InvA (oracle : Oracle) (i : Nat) (ch : Chunk) (st : RunState)
    (h : InvA st) : InvA (processChunkNS oracle i ch st) := by
  rcases processChunkNS_shape oracle i ch st with ⟨ls, heq⟩ | ⟨b0, hf, hw, hne, heq⟩
  · rw [heq]; exact h
  · rw [heq]
    exact writeUpd_InvA h hne (cleanedBatch_cols_fix st.seen b0)

theorem processChunkStrict_InvA (al aw : Bool) (w : Nat → Nat → Bool) (cg : Nat)
    (t : String) (oracle : Oracle) (i : Nat) (ch : Chunk) (st : RunState)
    (h : InvA st) : InvA (processChunkStrict al aw w cg t oracle i ch st) := by
  rcases processChunkStrict_shape al aw w cg t oracle i ch st with
    ⟨ls, heq⟩ | ⟨b0, b1, hf, hl, hw, hne, heq⟩
  · rw [heq]; exact h
  · rw [heq]
    exact writeUpd_InvA h hne (cleanedBatch_cols_fix st.seen _)

theorem initState_InvA : InvA initState := by
  refine ⟨rfl, rfl, by simp [initState], by simp [initState]⟩

theorem runNS_InvA (oracle : Oracle) : InvA (runNS oracle) :=
  runNS_preserve oracle InvA initState_InvA (fun _ _ h => h)
    (fun i ch st h => processChunkNS_InvA oracle i ch st h)

theorem runStrictFlags_InvA (al aw : Bool) (w : Nat → Nat → Bool) (t : String)
    (oracle : Oracle) : InvA (runStrictFlags al aw w t oracle) :=
  runStrictFlags_preserve al aw w t oracle InvA initState_InvA (fun _ _ h => h)
    (fun cg i ch st h => processChunkStrict_InvA al aw w cg t oracle i ch st h)

/-! ### Predicates over the container contents -/

theorem writeUpd_ContainerPred {P : Feature → Prop} {st : RunState} {b : Batch}
    (h : ContainerPred P st) (hb : ∀ f ∈ b.feats, P f) :
    ContainerPred P (writeUpd st b) := by
  unfold ContainerPred at h ⊢
  rw [writeUpd_writes]
  by_cases ht : st.total > 0
  · rw [if_pos ht, containerFeats_append_a]
    intro f hf
    rcases List.mem_append.mp hf with hf | hf
    · exact h f hf
    · exact hb f hf
  · rw [if_neg ht, containerFeats_append_w]
    exact hb

theorem projectFeature_adminLevel (kept : List String) (f : Feature) :
    (projectFeature kept f).adminLevel =
      if "admin_level" ∈ kept then f.adminLevel else none := rfl

theorem projectFeature_name (kept : List String) (f : Feature) :
    (projectFeature kept f).name = if "name" ∈ kept then f.name else none := rfl

/-- Every record the strict pipeline hands to the writer carries the target
admin level and lies within the country boundary. -/
theorem strictWritten_pred {w : Nat → Nat → Bool} {cg : Nat} {t : String}
    {seen : Finset String} {b0 b1 : Batch} (hl : levelStage t b0 = .ok b1) :
    ∀ f ∈ (cleanedBatch seen (withinFilter w cg b1)).feats,
      f.adminLevel = some t ∧ w f.geom cg = true := by
  intro f hf
  rcases levelStage_ok hl with ⟨hcol, rfl⟩
  unfold cleanedBatch at hf
  rcases mem_projectBatch.mp hf with ⟨y, hy, rfl⟩
  have hy1 := (mem_geomTypeFilter.mp hy).1
  have hy2 := (mem_noveltyFilter.mp hy1).1
  obtain ⟨hy3, hwithin⟩ := mem_withinFilter.mp hy2
  obtain ⟨hy4, hlev⟩ := mem_levelFilterB.mp hy3
  have hcols : (geomTypeFilter (noveltyFilter seen
      (withinFilter w cg (levelFilterB t b0)))).cols = b0.cols := rfl
  have hmem : "admin_level" ∈ keepColsList.filter (fun c => decide (c ∈
      (geomTypeFilter (noveltyFilter seen (withinFilter w cg (levelFilterB t b0)))).cols)) := by
    rw [hcols]
    refine List.mem_filter.mpr ⟨by simp [keepColsList], ?_⟩
    simpa using hcol
  constructor
  · rw [projectFeature_adminLevel, if_pos hmem]
    exact hlev
  · rw [projectFeature_geom]
    exact hwithin

theorem runStrictFlags_preserve_boundary (al aw : Bool) (w : Nat → Nat → Bool)
    (t : String) (oracle : Oracle) (g : Nat) (hb : oracle.boundary = .ok g)
    (P : RunState → Prop) (hinit : P initState)
    (hlog : ∀ st ls, P st → P { st with log := st.log ++ ls })
    (hstep : ∀ i ch st, P st → P (processChunkStrict al aw w g t oracle i ch st)) :
    P (runStrictFlags al aw w t oracle) := by
  unfold runStrictFlags
  rw [hb]
  dsimp only
  cases oracle.chunks with
  | error e => exact hlog initState _ hinit
  | ok cs =>
    dsimp only
    exact hlog _ _
      (foldl_preserve P _ (fun s a h => hstep a.1 a.2 s h) cs.enum initState hinit)

theorem initState_ContainerPred (P : Feature → Prop) : ContainerPred P initState := by
  intro f hf
  simp [containerFeats, initState] at hf

theorem runStrict_level_within (w : Nat → Nat → Bool) (t : String) (oracle : Oracle)
    (g : Nat) (hb : oracle.boundary = .ok g) :
    ContainerPred (fun f => f.adminLevel = some t ∧ w f.geom g = true)
      (runStrict w t oracle) := by
  unfold runStrict
  refine runStrictFlags_preserve_boundary true true w t oracle g hb _
    (initState_ContainerPred _) (fun st ls h => h) ?_
  intro i ch st h
  rcases processChunkStrict_shape true true w g t oracle i ch st with
    ⟨ls, heq⟩ | ⟨b0, b1, hf, hl, hw, hne, heq⟩
  · rw [heq]; exact h
  · rw [heq]
    have hl' : levelStage t b0 = .ok b1 := by simpa using hl
    exact writeUpd_ContainerPred h (strictWritten_pred hl')

/-! ### Equivalence of the disabled strict variant with the non-strict one -/

theorem processChunkStrict_ff (w : Nat → Nat → Bool) (cg : Nat) (t : String)
    (oracle : Oracle) (i : Nat) (ch : Chunk) (st : RunState) :
    processChunkStrict false false w cg t oracle i ch st =
      match oracle.fetchChunk i with
      | .error e => { st with log := st.log ++ [errLine ch.name e, skipMsg] }
      | .ok b0 =>
        if b0.feats.isEmpty then
          { st with log := st.log ++ ["  No features returned from OSM for this chunk."] }
        else
          let b3 := noveltyFilter st.seen b0
          if b3.feats.isEmpty then
            { st with log := st.log ++
                ["  No new, valid municipalities to save in this chunk."] }
          else
            let b4 := projectBatch (geomTypeFilter b3)
            if b4.feats.isEmpty then
              { st with log := st.log ++ ["  No valid polygons left after final cleaning."] }
            else if oracle.writeOk i then writeUpd st b4
            else { st with log := st.log ++ [errLine ch.name "write failed", skipMsg] } := rfl

theorem processChunk_equiv (w : Nat → Nat → Bool) (cg : Nat) (t : String)
    (oracle : Oracle) (i : Nat) (ch : Chunk) (s : Finset String) (tt : Nat)
    (ws : List WriteRec) (l1 l2 : List String) :
    Agrees (processChunkStrict false false w cg t oracle i ch ⟨s, tt, ws, l1⟩)
      (processChunkNS oracle i ch ⟨s, tt, ws, l2⟩) := by
  rw [processChunkStrict_ff]
  unfold processChunkNS
  cases hf : oracle.fetchChunk i with
  | error e => exact ⟨rfl, rfl, rfl⟩
  | ok b0 =>
    dsimp only
    by_cases h0 : b0.feats.isEmpty = true
    · rw [if_pos h0, if_pos h0, if_pos h0]
      exact ⟨rfl, rfl, rfl⟩
    · rw [if_neg h0, if_neg h0]
      by_cases h1 : (noveltyFilter s b0).feats.isEmpty = true
      · rw [if_pos h1, if_pos h1]
        exact ⟨rfl, rfl, rfl⟩
      · rw [if_neg h1, if_neg h1]
        by_cases h3 : (projectBatch (geomTypeFilter (noveltyFilter s b0))).feats.isEmpty = true
        · rw [if_pos h3, if_pos h3]
          exact ⟨rfl, rfl, rfl⟩
        · rw [if_neg h3, if_neg h3]
          by_cases hw : oracle.writeOk i = true
          · rw [if_pos hw, if_pos hw]
            exact ⟨rfl, rfl, rfl⟩
          · rw [if_neg hw, if_neg hw]
            exact ⟨rfl, rfl, rfl⟩

theorem processChunk_equiv_of_agrees (w : Nat → Nat → Bool) (cg : Nat) (t : String)
    (oracle : Oracle) (i : Nat) (ch : Chunk) {st1 st2 : RunState} (h : Agrees st1 st2) :
    Agrees (processChunkStrict false false w cg t oracle i ch st1)
      (processChunkNS oracle i ch st2) := by
  obtain ⟨hs, ht, hw⟩ := h
  obtain ⟨s1, t1, ws1, l1⟩ := st1
  obtain ⟨s2, t2, ws2, l2⟩ := st2
  cases hs; cases ht; cases hw
  exact processChunk_equiv w cg t oracle i ch s1 t1 ws1 l1 l2

theorem run_equiv (w : Nat → Nat → Bool) (t : String) (oracle : Oracle) (g : Nat)
    (hb : oracle.boundary = .ok g) :
    Agrees (runStrictFlags false false w t oracle) (runNS oracle) := by
  unfold runStrictFlags runNS
  rw [hb]
  dsimp only
  cases oracle.chunks with
  | error e => exact ⟨rfl, rfl, rfl⟩
  | ok cs =>
    dsimp only
    exact foldl_rel Agrees
      (fun st p => processChunkStrict false false w g t oracle p.1 p.2 st)
      (fun st p => processChunkNS oracle p.1 p.2 st)
      (fun s1 s2 a h => processChunk_equiv_of_agrees w g t oracle a.1 a.2 h)
      cs.enum initState initState ⟨rfl, rfl, rfl⟩

/-! ### Monotone growth of the dedup set -/

theorem processChunkNS_seen_mono (oracle : Oracle) (i : Nat) (ch : Chunk) (st : RunState) :
    st.seen ⊆ (processChunkNS oracle i ch st).seen := by
  rcases processChunkNS_shape oracle i ch st with ⟨ls, heq⟩ | ⟨b0, hf, hw, hne, heq⟩
  · rw [heq]
  · rw [heq]
    exact Finset.subset_union_left

theorem processChunkStrict_seen_mono (al aw : Bool) (w : Nat → Nat → Bool) (cg : Nat)
    (t : String) (oracle : Oracle) (i : Nat) (ch : Chunk) (st : RunState) :
    st.seen ⊆ (processChunkStrict al aw w cg t oracle i ch st).seen := by
  rcases processChunkStrict_shape al aw w cg t oracle i ch st with
    ⟨ls, heq⟩ | ⟨b0, b1, hf, hl, hw, hne, heq⟩
  · rw [heq]
  · rw [heq]
    exact Finset.subset_union_left

/-! ### Error-path equations -/

theorem processChunkNS_fetch_error (oracle : Oracle) (i : Nat) (ch : Chunk)
    (st : RunState) (e : String) (hf : oracle.fetchChunk i = .error e) :
    processChunkNS oracle i ch st =
      { st with log := st.log ++ [errLine ch.name e, skipMsg] } := by
  unfold processChunkNS
  rw [hf]

theorem processChunkStrict_fetch_error (al aw : Bool) (w : Nat → Nat → Bool) (cg : Nat)
    (t : String) (oracle : Oracle) (i : Nat) (ch : Chunk) (st : RunState) (e : String)
    (hf : oracle.fetchChunk i = .error e) :
    processChunkStrict al aw w cg t oracle i ch st =
      { st with log := st.log ++ [errLine ch.name e, skipMsg] } := by
  unfold processChunkStrict
  rw [hf]

theorem processChunkStrict_level_error (aw : Bool) (w : Nat → Nat → Bool) (cg : Nat)
    (t : String) (oracle : Oracle) (i : Nat) (ch : Chunk) (st : RunState)
    (b0 : Batch) (e : String) (hf : oracle.fetchChunk i = .ok b0)
    (h0 : b0.feats.isEmpty = false) (hlev : levelStage t b0 = .error e) :
    processChunkStrict true aw w cg t oracle i ch st =
      { st with log := st.log ++ [errLine ch.name e, skipMsg] } := by
  unfold processChunkStrict
  rw [hf]
  dsimp only
  rw [if_neg (by simp [h0]), if_pos rfl, hlev]

theorem processChunkNS_writeFail (oracle : Oracle) (i : Nat) (ch : Chunk)
    (st : RunState) (hwf : oracle.writeOk i = false) :
    (processChunkNS oracle i ch st).seen = st.seen ∧
    (processChunkNS oracle i ch st).total = st.total ∧
    (processChunkNS oracle i ch st).writes = st.writes := by
  rcases processChunkNS_shape oracle i ch st with ⟨ls, heq⟩ | ⟨b0, hf, hw, hne, heq⟩
  · rw [heq]; exact ⟨rfl, rfl, rfl⟩
  · rw [hwf] at hw; exact Bool.noConfusion hw

theorem processChunkStrict_writeFail (al aw : Bool) (w : Nat → Nat → Bool) (cg : Nat)
    (t : String) (oracle : Oracle) (i : Nat) (ch : Chunk) (st : RunState)
    (hwf : oracle.writeOk i = false) :
    (processChunkStrict al aw w cg t oracle i ch st).seen = st.seen ∧
    (processChunkStrict al aw w cg t oracle i ch st).total = st.total ∧
    (processChunkStrict al aw w cg t oracle i ch st).writes = st.writes := by
  rcases processChunkStrict_shape al aw w cg t oracle i ch st with
    ⟨ls, heq⟩ | ⟨b0, b1, hf, hl, hw, hne, heq⟩
  · rw [heq]; exact ⟨rfl, rfl, rfl⟩
  · rw [hwf] at hw; exact Bool.noConfusion hw

theorem processChunkNS_writeFail_log (oracle : Oracle) (i : Nat) (ch : Chunk)
    (st : RunState) (b0 : Batch) (hf : oracle.fetchChunk i = .ok b0)
    (hne : (cleanedBatch st.seen b0).feats ≠ []) (hwf : oracle.writeOk i = false) :
    processChunkNS oracle i ch st =
      { st with log := st.log ++ [errLine ch.name "write failed", skipMsg] } := by
  have hnov : (noveltyFilter st.seen b0).feats ≠ [] := by
    intro h
    exact hne (by simp [cleanedBatch, projectBatch, geomTypeFilter, h])
  have hb0 : ¬ b0.feats.isEmpty = true := by
    rw [List.isEmpty_iff]
    intro h
    exact hnov (by simp [noveltyFilter, h])
  have hnov' : ¬ (noveltyFilter st.seen b0).feats.isEmpty = true := by
    rw [List.isEmpty_iff]; exact hnov
  have hcl : ¬ (projectBatch (geomTypeFilter (noveltyFilter st.seen b0))).feats.isEmpty = true := by
    rw [List.isEmpty_iff]
    intro h
    exact hne (by simpa [cleanedBatch] using h)
  unfold processChunkNS
  rw [hf]
  dsimp only
  rw [if_neg hb0, if_neg hnov', if_neg hcl, if_neg (by simp [hwf])]

theorem processChunkStrict_writeFail_log (al aw : Bool) (w : Nat → Nat → Bool)
    (cg : Nat) (t : String) (oracle : Oracle) (i : Nat) (ch : Chunk) (st : RunState)
    (b0 b1 : Batch) (hf : oracle.fetchChunk i = .ok b0)
    (hl : (if al then levelStage t b0 else .ok b0) = .ok b1)
    (hne : (cleanedBatch st.seen (if aw then withinFilter w cg b1 else b1)).feats ≠ [])
    (hwf : oracle.writeOk i = false) :
    processChunkStrict al aw w cg t oracle i ch st =
      { st with log := st.log ++ [errLine ch.name "write failed", skipMsg] } := by
  have hnov : (noveltyFilter st.seen
      ((if aw then withinFilter w cg b1 else b1) : Batch)).feats ≠ [] := by
    intro h
    exact hne (by simp [cleanedBatch, projectBatch, geomTypeFilter, h])
  have hb2 : ((if aw then withinFilter w cg b1 else b1) : Batch).feats ≠ [] := by
    intro h
    exact hnov (by simp [noveltyFilter, h])
  have hb1ne : b1.feats ≠ [] := by
    intro h
    apply hb2
    cases aw with
    | true => simp [withinFilter, h]
    | false => simpa using h
  have hb0 : ¬ b0.feats.isEmpty = true := by
    rw [List.isEmpty_iff]
    intro h
    apply hb1ne
    cases al with
    | true =>
      rcases levelStage_ok (by simpa using hl) with ⟨-, rfl⟩
      simp [levelFilterB, h]
    | false =>
      have hb : b0 = b1 := by simpa using hl
      rw [← hb, h]
  have hnov' : ¬ (noveltyFilter st.seen
      ((if aw then withinFilter w cg b1 else b1) : Batch)).feats.isEmpty = true := by
    rw [List.isEmpty_iff]; exact hnov
  have hcl : ¬ (projectBatch (geomTypeFilter (noveltyFilter st.seen
      ((if aw then withinFilter w cg b1 else b1) : Batch)))).feats.isEmpty = true := by
    rw [List.isEmpty_iff]
    intro h
    exact hne (by simpa [cleanedBatch] using h)
  unfold processChunkStrict
  rw [hf]
  dsimp only
  rw [if_neg hb0, hl]
  dsimp only
  rw [if_neg hnov', if_neg hcl, if_neg (by simp [hwf])]

theorem runNS_completes (oracle : Oracle) (cs : List Chunk) (hc : oracle.chunks = .ok cs) :
    ∃ pre, (runNS oracle).log = pre ++ summaryLines (runNS oracle).total := by
  unfold runNS
  rw [hc]
  exact ⟨_, rfl⟩

theorem runStrictFlags_completes (al aw : Bool) (w : Nat → Nat → Bool) (t : String)
    (oracle : Oracle) (g : Nat) (cs : List Chunk)
    (hb : oracle.boundary = .ok g) (hc : oracle.chunks = .ok cs) :
    ∃ pre, (runStrictFlags al aw w t oracle).log =
      pre ++ summaryLines (runStrictFlags al aw w t oracle).total := by
  unfold runStrictFlags
  rw [hb]
  dsimp only
  rw [hc]
  exact ⟨_, rfl⟩

/-! ### Idempotence of the filter pipeline -/

theorem projectFeature_idem (kept : List String) (f : Feature) :
    projectFeature kept (projectFeature kept f) = projectFeature kept f := by
  by_cases hn : "name" ∈ kept <;> by_cases ha : "admin_level" ∈ kept <;>
    simp [projectFeature, hn, ha]

theorem projectBatch_idem (b : Batch) : projectBatch (projectBatch b) = projectBatch b := by
  unfold projectBatch
  dsimp only
  rw [filter_mem_filter, List.map_map]
  congr 1
  apply List.map_congr_left
  intro a ha
  exact projectFeature_idem _ a

theorem filterPipeline_ok {t : String} {w : Nat → Nat → Bool} {cg : Nat}
    {seen : Finset String} {b b' : Batch} (h : filterPipeline t w cg seen b = .ok b') :
    "admin_level" ∈ b.cols ∧
    b' = projectBatch (geomTypeFilter (noveltyFilter seen
      (withinFilter w cg (levelFilterB t b)))) := by
  unfold filterPipeline at h
  cases hl : levelStage t b with
  | error e => rw [hl] at h; exact Except.noConfusion h
  | ok b1 =>
    rw [hl] at h
    rcases levelStage_ok hl with ⟨hcol, rfl⟩
    injection h with h
    exact ⟨hcol, h.symm⟩

theorem filterPipeline_idem {t : String} {w : Nat → Nat → Bool} {cg : Nat}
    {seen : Finset String} {b b' : Batch} (h : filterPipeline t w cg seen b = .ok b') :
    filterPipeline t w cg seen b' = .ok b' := by
  obtain ⟨hcol, hb'⟩ := filterPipeline_ok h
  have hkept : b'.cols = keepColsList.filter (fun c => decide (c ∈ b.cols)) := by
    rw [hb']; rfl
  have hcolmem : "admin_level" ∈ b'.cols := by
    rw [hkept]
    exact List.mem_filter.mpr ⟨by simp [keepColsList], by simpa using hcol⟩
  have hx : ∀ x ∈ b'.feats, x.adminLevel = some t ∧ w x.geom cg = true ∧
      x.id ∉ seen ∧ (x.geomType = "Polygon" ∨ x.geomType = "MultiPolygon") := by
    intro x hxmem
    rw [hb'] at hxmem
    rcases mem_projectBatch.mp hxmem with ⟨y, hy, rfl⟩
    obtain ⟨hy1, hgeo⟩ := mem_geomTypeFilter.mp hy
    obtain ⟨hy2, hnov⟩ := mem_noveltyFilter.mp hy1
    obtain ⟨hy3, hwit⟩ := mem_withinFilter.mp hy2
    obtain ⟨hy4, hlev⟩ := mem_levelFilterB.mp hy3
    have hmem2 : "admin_level" ∈ keepColsList.filter (fun c => decide (c ∈
        (geomTypeFilter (noveltyFilter seen (withinFilter w cg (levelFilterB t b)))).cols)) := by
      refine List.mem_filter.mpr ⟨by simp [keepColsList], ?_⟩
      simpa using hcol
    refine ⟨?_, ?_, ?_, ?_⟩
    · rw [projectFeature_adminLevel, if_pos hmem2]; exact hlev
    · rw [projectFeature_geom]; exact hwit
    · rw [projectFeature_id]; exact hnov
    · rw [projectFeature_geomType]; exact hgeo
  have e1 : levelFilterB t b' = b' := by
    have hf : b'.feats.filter (fun f => f.adminLevel == some t) = b'.feats :=
      List.filter_eq_self.mpr (fun a ha => by rw [beq_iff_eq]; exact (hx a ha).1)
    unfold levelFilterB
    rw [hf]
  have e2 : withinFilter w cg b' = b' := by
    have hf : b'.feats.filter (fun f => w f.geom cg) = b'.feats :=
      List.filter_eq_self.mpr (fun a ha => (hx a ha).2.1)
    unfold withinFilter
    rw [hf]
  have e3 : noveltyFilter seen b' = b' := by
    have hf : b'.feats.filter (fun f => decide (f.id ∉ seen)) = b'.feats :=
      List.filter_eq_self.mpr (fun a ha => decide_eq_true (hx a ha).2.2.1)
    unfold noveltyFilter
    rw [hf]
  have e4 : geomTypeFilter b' = b' := by
    have hf : b'.feats.filter
        (fun f => f.geomType == "Polygon" || f.geomType == "MultiPolygon") = b'.feats :=
      List.filter_eq_self.mpr (fun a ha => by
        rcases (hx a ha).2.2.2 with hp | hp <;> simp [hp])
    unfold geomTypeFilter
    rw [hf]
  have e5 : projectBatch b' = b' := by
    conv_lhs => rw [hb']
    rw [projectBatch_idem, ← hb']
  unfold filterPipeline
  unfold levelStage
  rw [if_pos hcolmem]
  dsimp only
  rw [e1, e2, e3, e4, e5]

theorem oracleDup_nodup : ChunkIdsNodup oracleDup := by
  intro i b h
  match i with
  | 0 =>
    have h' : Except.ok (⟨fullCols, [featA]⟩ : Batch) = Except.ok b := h
    injection h' with h'
    rw [← h']
    decide
  | 1 =>
    have h' : Except.ok (⟨fullCols, [featB, featC]⟩ : Batch) = Except.ok b := h
    injection h' with h'
    rw [← h']
    decide
  | (n + 2) =>
    exact Except.noConfusion (show Except.error "out of range" = Except.ok b from h)

/-! ### The claims -/

theorem mode_if_eq (n : Nat) :
    (if n > 0 then "a" else "w") = if n = 0 then "w" else "a" := by
  cases n with
  | zero => rfl
  | succ m => simp

/-- Claim C1: for every run, no two distinct Features written to the Output
Container share an identifier — under the OSM index contract that each fetched
chunk batch carries pairwise-distinct ids, the container's identifier list is
duplicate-free, in the non-strict and in the strict chunked pipeline (the
novelty filter drops identifiers already in the Dedup Set and the dedup-set
update records the written batch's identifiers after each successful write). -/
theorem C1_no_duplicate_ids (oracle : Oracle) (hN : ChunkIdsNodup oracle) :
    (containerIds (runNS oracle).writes).Nodup ∧
    ∀ (w : Nat → Nat → Bool) (t : String),
      (containerIds (runStrict w t oracle).writes).Nodup :=
  ⟨(runNS_InvB oracle hN).1, fun w t => (runStrictFlags_InvB true true w t oracle hN).1⟩

/-- Witness for C1, at the scenario where two chunks both contain a feature
with identifier `"way/123"`: exactly one record with that identifier is
written, the one from the chunk processed first (name `"Alpha"`, not
`"Beta"`). -/
theorem C1_no_duplicate_ids_witness :
    ChunkIdsNodup oracleDup ∧
    (containerIds (runNS oracleDup).writes).Nodup ∧
    containerIds (runNS oracleDup).writes = ["way/123", "way/456"] ∧
    (containerFeats (runNS oracleDup).writes).map (fun f => f.name) =
      [some "Alpha", some "Gamma"] :=
  ⟨oracleDup_nodup, (C1_no_duplicate_ids oracleDup oracleDup_nodup).1, by decide, by decide⟩

/-- Claim C2 counterexample: in the non-strict pipeline a fetched feature
whose admin level is `"9"` (the configured target being `"8"`) is written to
the output container — that variant has no level filter of its own. -/
theorem C2_level_counterexample :
    (containerFeats (runNS oracleLvl9).writes).map (fun f => f.adminLevel) = [some "9"] ∧
    targetAdminLevel = "8" := by decide

/-- Claim C2 as amended: in the strict pipeline variant every Feature written
to the Output Container has an admin level equal to the configured target
(string equality on the attribute; a missing value never equals the target),
so a fetched Feature with a different or missing level is never written there;
the non-strict variant performs no level check of its own. -/
theorem C2_strict_level_equality (w : Nat → Nat → Bool) (t : String) (oracle : Oracle) :
    ∀ f ∈ containerFeats (runStrict w t oracle).writes, f.adminLevel = some t := by
  cases hb : oracle.boundary with
  | error e =>
    intro f hf
    unfold runStrict runStrictFlags at hf
    rw [hb] at hf
    simp [containerFeats, initState] at hf
  | ok g =>
    intro f hf
    exact ((runStrict_level_within w t oracle g hb) f hf).1

/-- Witness for the amended C2: a concrete strict run writes `featA`, whose
admin level is the target `"8"`. -/
theorem C2_strict_level_equality_witness :
    featA ∈ containerFeats (runStrict wTrue "8" oracleDup).writes ∧
    featA.adminLevel = some "8" :=
  ⟨by decide, C2_strict_level_equality wTrue "8" oracleDup featA (by decide)⟩

/-- Claim C3: a chunk whose processing raises an error — a failed feature
fetch, a `KeyError` in the strict level filter, or a failed write — commits no
partial state: the dedup set, running total and write sequence after the chunk
equal their values before it; the error (fetch, filter, or attempted-write
failure alike) is logged with the chunk's name and the chunk is skipped; and
whenever the initial chunk fetch succeeded the run still completes and ends
its log with the final summary. -/
theorem C3_chunk_isolation :
    (∀ oracle i ch st e, oracle.fetchChunk i = .error e →
        processChunkNS oracle i ch st =
          { st with log := st.log ++ [errLine ch.name e, skipMsg] }) ∧
    (∀ al aw w cg t oracle i ch st e, oracle.fetchChunk i = .error e →
        processChunkStrict al aw w cg t oracle i ch st =
          { st with log := st.log ++ [errLine ch.name e, skipMsg] }) ∧
    (∀ aw w cg t oracle i ch st b0 e, oracle.fetchChunk i = .ok b0 →
        b0.feats.isEmpty = false → levelStage t b0 = .error e →
        processChunkStrict true aw w cg t oracle i ch st =
          { st with log := st.log ++ [errLine ch.name e, skipMsg] }) ∧
    (∀ oracle i ch st, oracle.writeOk i = false →
        (processChunkNS oracle i ch st).seen = st.seen ∧
        (processChunkNS oracle i ch st).total = st.total ∧
        (processChunkNS oracle i ch st).writes = st.writes) ∧
    (∀ al aw w cg t oracle i ch st, oracle.writeOk i = false →
        (processChunkStrict al aw w cg t oracle i ch st).seen = st.seen ∧
        (processChunkStrict al aw w cg t oracle i ch st).total = st.total ∧
        (processChunkStrict al aw w cg t oracle i ch st).writes = st.writes) ∧
    (∀ oracle i ch st b0, oracle.fetchChunk i = .ok b0 →
        (cleanedBatch st.seen b0).feats ≠ [] → oracle.writeOk i = false →
        processChunkNS oracle i ch st =
          { st with log := st.log ++ [errLine ch.name "write failed", skipMsg] }) ∧
    (∀ al aw w cg t oracle i ch st b0 b1, oracle.fetchChunk i = .ok b0 →
        (if al then levelStage t b0 else .ok b0) = .ok b1 →
        (cleanedBatch st.seen (if aw then withinFilter w cg b1 else b1)).feats ≠ [] →
        oracle.writeOk i = false →
        processChunkStrict al aw w cg t oracle i ch st =
          { st with log := st.log ++ [errLine ch.name "write failed", skipMsg] }) ∧
    (∀ oracle cs, oracle.chunks = .ok cs →
        ∃ pre, (runNS oracle).log = pre ++ summaryLines (runNS oracle).total) ∧
    (∀ w t oracle g cs, oracle.boundary = .ok g → oracle.chunks = .ok cs →
        ∃ pre, (runStrict w t oracle).log = pre ++ summaryLines (runStrict w t oracle).total) :=
  ⟨processChunkNS_fetch_error, processChunkStrict_fetch_error,
   fun aw w cg t oracle i ch st b0 e hf h0 hl =>
     processChunkStrict_level_error aw w cg t oracle i ch st b0 e hf h0 hl,
   processChunkNS_writeFail, processChunkStrict_writeFail,
   processChunkNS_writeFail_log, processChunkStrict_writeFail_log, runNS_completes,
   fun w t oracle g cs hb hc => runStrictFlags_completes true true w t oracle g cs hb hc⟩

/-- Witness for C3: a concrete chunk whose fetch fails, and one whose write
fails with a non-empty cleaned batch, each leave the initial state untouched
except for the two log lines naming the chunk. -/
theorem C3_chunk_isolation_witness :
    (processChunkNS oracleFetchErr 0 ⟨"Bavaria", 10⟩ initState =
      { initState with log := [errLine "Bavaria" "connection reset", skipMsg] }) ∧
    (processChunkNS oracleWriteFail 0 ⟨"State A", 10⟩ initState =
      { initState with log := [errLine "State A" "write failed", skipMsg] }) :=
  ⟨C3_chunk_isolation.1 oracleFetchErr 0 ⟨"Bavaria", 10⟩ initState "connection reset" rfl,
   C3_chunk_isolation.2.2.2.2.2.1 oracleWriteFail 0 ⟨"State A", 10⟩ initState
     ⟨fullCols, [featA]⟩ rfl (by decide) rfl⟩

/-- Claim C4: in strict mode every Feature written to the Output Container
lies within the country boundary geometry (the `within` predicate, not mere
intersection — the model's abstract `within` oracle), both in the chunked
strict pipeline and in the one-shot script; a feature for which `within` is
false is dropped before writing. -/
theorem C4_strict_containment (w : Nat → Nat → Bool) (t : String) (oracle : Oracle)
    (g : Nat) (hb : oracle.boundary = .ok g) :
    (∀ f ∈ containerFeats (runStrict w t oracle).writes, w f.geom g = true) ∧
    (∀ b b', testScriptRun w b g = .ok b' → ∀ f ∈ b'.feats, w f.geom g = true) := by
  constructor
  · intro f hf
    exact ((runStrict_level_within w t oracle g hb) f hf).2
  · intro b b' h f hf
    unfold testScriptRun at h
    dsimp only at h
    cases hl : levelStage "8" (geomTypeFilter { b with feats := dedupByName b.feats }) with
    | error e => rw [hl] at h; exact Except.noConfusion h
    | ok m3 =>
      rw [hl] at h
      injection h with h
      rw [← h] at hf
      rcases mem_projectBatch.mp hf with ⟨y, hy, rfl⟩
      rw [projectFeature_geom]
      exact (mem_withinFilter.mp hy).2

/-- Witness for C4: in a concrete strict run whose boundary fetch succeeded,
the written feature `featA` satisfies the containment predicate. -/
theorem C4_strict_containment_witness :
    oracleDup.boundary = .ok 0 ∧ wTrue featA.geom 0 = true :=
  ⟨rfl, (C4_strict_containment wTrue "8" oracleDup 0 rfl).1 featA (by decide)⟩

/-- Claim C5: the Dedup Set only ever grows — each chunk step extends it, so
its size is non-decreasing from chunk to chunk — and (under the OSM index
contract) it equals the set of identifiers accepted into the output so far,
with the running total reported in the summary equal to its size at run end,
in both pipeline variants. -/
theorem C5_dedup_monotone_and_total :
    (∀ oracle i ch st, st.seen ⊆ (processChunkNS oracle i ch st).seen ∧
        st.seen.card ≤ (processChunkNS oracle i ch st).seen.card) ∧
    (∀ al aw w cg t oracle i ch st,
        st.seen ⊆ (processChunkStrict al aw w cg t oracle i ch st).seen ∧
        st.seen.card ≤ (processChunkStrict al aw w cg t oracle i ch st).seen.card) ∧
    (∀ oracle, ChunkIdsNodup oracle →
        (containerIds (runNS oracle).writes).toFinset = (runNS oracle).seen ∧
        (runNS oracle).total = (runNS oracle).seen.card) ∧
    (∀ w t oracle, ChunkIdsNodup oracle →
        (containerIds (runStrict w t oracle).writes).toFinset = (runStrict w t oracle).seen ∧
        (runStrict w t oracle).total = (runStrict w t oracle).seen.card) :=
  ⟨fun oracle i ch st =>
      ⟨processChunkNS_seen_mono oracle i ch st,
       Finset.card_le_card (processChunkNS_seen_mono oracle i ch st)⟩,
   fun al aw w cg t oracle i ch st =>
      ⟨processChunkStrict_seen_mono al aw w cg t oracle i ch st,
       Finset.card_le_card (processChunkStrict_seen_mono al aw w cg t oracle i ch st)⟩,
   fun oracle hN => ⟨(runNS_InvB oracle hN).2.1, (runNS_InvB oracle hN).2.2⟩,
   fun w t oracle hN =>
      ⟨(runStrictFlags_InvB true true w t oracle hN).2.1,
       (runStrictFlags_InvB true true w t oracle hN).2.2⟩⟩

/-- Witness for C5: on a concrete two-chunk run the final total is 2 and
equals the dedup set's size, and the dedup set is the set of accepted ids. -/
theorem C5_dedup_monotone_and_total_witness :
    (runNS oracleDup).total = (runNS oracleDup).seen.card ∧
    (containerIds (runNS oracleDup).writes).toFinset = (runNS oracleDup).seen ∧
    (runNS oracleDup).total = 2 :=
  ⟨(C5_dedup_monotone_and_total.2.2.1 oracleDup oracleDup_nodup).2,
   (C5_dedup_monotone_and_total.2.2.1 oracleDup oracleDup_nodup).1, by decide⟩

/-- Claim C6: each chunk step either leaves the write sequence unchanged or
appends exactly one write whose mode is `"w"` iff the running total is zero at
that moment, targeting the fixed layer; consequently, over a whole run the
first write creates the file (mode `"w"`, truncating any pre-existing one) and
all later writes append (mode `"a"`) to the same layer, in both variants. -/
theorem C6_write_modes :
    (∀ oracle i ch st,
        (processChunkNS oracle i ch st).writes = st.writes ∨
        ∃ b, (processChunkNS oracle i ch st).writes =
          st.writes ++ [⟨if st.total = 0 then "w" else "a", layerName, b⟩]) ∧
    (∀ al aw w cg t oracle i ch st,
        (processChunkStrict al aw w cg t oracle i ch st).writes = st.writes ∨
        ∃ b, (processChunkStrict al aw w cg t oracle i ch st).writes =
          st.writes ++ [⟨if st.total = 0 then "w" else "a", layerName, b⟩]) ∧
    (∀ oracle,
        (runNS oracle).writes.map (fun wr => wr.mode) = modesFor (runNS oracle).writes.length ∧
        (runNS oracle).writes.map (fun wr => wr.layer) =
          List.replicate (runNS oracle).writes.length layerName) ∧
    (∀ w t oracle,
        (runStrict w t oracle).writes.map (fun wr => wr.mode) =
          modesFor (runStrict w t oracle).writes.length ∧
        (runStrict w t oracle).writes.map (fun wr => wr.layer) =
          List.replicate (runStrict w t oracle).writes.length layerName) := by
  refine ⟨?_, ?_, ?_, ?_⟩
  · intro oracle i ch st
    rcases processChunkNS_shape oracle i ch st with ⟨ls, heq⟩ | ⟨b0, hf, hw, hne, heq⟩
    · left; rw [heq]
    · right
      refine ⟨cleanedBatch st.seen b0, ?_⟩
      rw [heq, writeUpd_writes, mode_if_eq]
  · intro al aw w cg t oracle i ch st
    rcases processChunkStrict_shape al aw w cg t oracle i ch st with
      ⟨ls, heq⟩ | ⟨b0, b1, hf, hl, hw, hne, heq⟩
    · left; rw [heq]
    · right
      refine ⟨cleanedBatch st.seen (if aw then withinFilter w cg b1 else b1), ?_⟩
      rw [heq, writeUpd_writes, mode_if_eq]
  · intro oracle
    exact ⟨(runNS_InvA oracle).1, (runNS_InvA oracle).2.1⟩
  · intro w t oracle
    exact ⟨(runStrictFlags_InvA true true w t oracle).1,
           (runStrictFlags_InvA true true w t oracle).2.1⟩

/-- Claim C7: when fetching the initial chunk-region set fails — or, in the
strict variant, when fetching the country boundary fails — the run prints the
corresponding error and ends immediately in the initial state: zero chunks
processed, zero features saved, an empty write sequence, and an empty output
container (no write is attempted). -/
theorem C7_fatal_initial_failure :
    (∀ oracle e, oracle.chunks = .error e →
        runNS oracle = { initState with
          log := ["Could not download state polygons. Error: " ++ e] }) ∧
    (∀ al aw w t oracle e, oracle.boundary = .error e →
        runStrictFlags al aw w t oracle = { initState with
          log := ["Could not download country boundary. Cannot proceed. Error: " ++ e] }) ∧
    (∀ al aw w t oracle g e, oracle.boundary = .ok g → oracle.chunks = .error e →
        runStrictFlags al aw w t oracle = { initState with
          log := ["Could not download state polygons. Cannot proceed. Error: " ++ e] }) ∧
    (∀ oracle e, oracle.chunks = .error e →
        (runNS oracle).total = 0 ∧ (runNS oracle).writes = [] ∧
        containerFeats (runNS oracle).writes = []) ∧
    (∀ al aw w t oracle e, oracle.boundary = .error e →
        (runStrictFlags al aw w t oracle).total = 0 ∧
        (runStrictFlags al aw w t oracle).writes = [] ∧
        containerFeats (runStrictFlags al aw w t oracle).writes = []) := by
  refine ⟨?_, ?_, ?_, ?_, ?_⟩
  · intro oracle e hc
    unfold runNS
    rw [hc]
  · intro al aw w t oracle e hb
    unfold runStrictFlags
    rw [hb]
  · intro al aw w t oracle g e hb hc
    unfold runStrictFlags
    rw [hb]
    dsimp only
    rw [hc]
  · intro oracle e hc
    unfold runNS
    rw [hc]
    exact ⟨rfl, rfl, rfl⟩
  · intro al aw w t oracle e hb
    unfold runStrictFlags
    rw [hb]
    exact ⟨rfl, rfl, rfl⟩

/-- Witness for C7: a concrete run whose chunk-region fetch fails ends with
only the error line, nothing written. -/
theorem C7_fatal_initial_failure_witness :
    runNS oracleFatal = { initState with
      log := ["Could not download state polygons. Error: " ++ "dns failure"] } :=
  C7_fatal_initial_failure.1 oracleFatal "dns failure" rfl

/-- Claim C8 counterexample: a chunk fetched without a `name` column is
written with only the `geometry` and `admin_level` columns — the written batch
does not always contain exactly the three columns. -/
theorem C8_columns_counterexample :
    (runNS oracleNoName).writes.map (fun wr => wr.batch.cols) =
      [["geometry", "admin_level"]] ∧
    keepColsList = ["name", "geometry", "admin_level"] := by decide

/-- Claim C8 as amended: every batch written to the output (in either
variant) carries exactly those of the columns `name`, `geometry`,
`admin_level` that are present in the batch — its column list is a sublist of
the three kept columns and is fixed by the projection, but a column the
fetched chunk did not carry (e.g. `name`) is missing from the written batch. -/
theorem C8_projected_columns :
    (∀ oracle wr, wr ∈ (runNS oracle).writes →
        wr.batch.cols = keepColsList.filter (fun c => decide (c ∈ wr.batch.cols)) ∧
        wr.batch.cols.Sublist keepColsList) ∧
    (∀ w t oracle wr, wr ∈ (runStrict w t oracle).writes →
        wr.batch.cols = keepColsList.filter (fun c => decide (c ∈ wr.batch.cols)) ∧
        wr.batch.cols.Sublist keepColsList) := by
  constructor
  · intro oracle wr hw
    have h := (runNS_InvA oracle).2.2.2 wr hw
    exact ⟨h, by rw [h]; exact List.filter_sublist _⟩
  · intro w t oracle wr hw
    have h := (runStrictFlags_InvA true true w t oracle).2.2.2 wr hw
    exact ⟨h, by rw [h]; exact List.filter_sublist _⟩

/-- Witness for the amended C8: the concrete write of the name-less chunk has
a projection-closed column list. -/
theorem C8_projected_columns_witness :
    (⟨"w", layerName, ⟨["geometry", "admin_level"], [featNoName]⟩⟩ : WriteRec) ∈
      (runNS oracleNoName).writes ∧
    (["geometry", "admin_level"] : List String) =
      keepColsList.filter (fun c => decide (c ∈ (["geometry", "admin_level"] : List String))) :=
  ⟨by decide,
   (C8_projected_columns.1 oracleNoName ⟨"w", layerName, ⟨["geometry", "admin_level"], [featNoName]⟩⟩
      (by decide)).1⟩

/-- Claim C9: at a fixed dedup-set snapshot the five-stage filter pipeline
(level filter, containment filter, novelty filter, geometry-type filter,
column projection) is idempotent — re-running it on an already-filtered batch
returns that batch unchanged. -/
theorem C9_filter_pipeline_idempotent (t : String) (w : Nat → Nat → Bool) (cg : Nat)
    (seen : Finset String) (b b' : Batch) (h : filterPipeline t w cg seen b = .ok b') :
    filterPipeline t w cg seen b' = .ok b' :=
  filterPipeline_idem h

/-- Witness for C9: a concrete batch containing a wrong-level feature filters
to a single-feature batch, and the pipeline maps that output to itself. -/
theorem C9_filter_pipeline_idempotent_witness :
    filterPipeline "8" wTrue 0 ∅ ⟨fullCols, [featA, feat9]⟩ = .ok ⟨keepColsList, [featA]⟩ ∧
    filterPipeline "8" wTrue 0 ∅ ⟨keepColsList, [featA]⟩ = .ok ⟨keepColsList, [featA]⟩ :=
  ⟨rfl, C9_filter_pipeline_idempotent "8" wTrue 0 ∅ ⟨fullCols, [featA, feat9]⟩
    ⟨keepColsList, [featA]⟩ rfl⟩

/-- Claim C10 counterexample: the two variants do not coincide on every
input even with the two strict stages disabled — on an input whose
country-boundary fetch fails, the strict variant ends with zero saved while
the non-strict variant saves a feature, so the outputs differ. -/
theorem C10_variants_counterexample :
    (runStrictFlags false false wTrue targetAdminLevel oracleBoundaryFail).total = 0 ∧
    (runNS oracleBoundaryFail).total = 1 ∧
    (runStrictFlags false false wTrue targetAdminLevel oracleBoundaryFail).writes ≠
      (runNS oracleBoundaryFail).writes := by decide

/-- Claim C10 as amended: whenever the country-boundary fetch succeeds, the
strict variant with its level-equality stage and its containment stage
disabled produces exactly the same write sequence (hence the same output file
contents), the same final Dedup Set and the same running total as the
non-strict variant; when that fetch fails the strict variant stops while the
non-strict variant, which never performs it, proceeds. -/
theorem C10_variants_agree_when_boundary_ok (w : Nat → Nat → Bool) (t : String)
    (oracle : Oracle) (g : Nat) (hb : oracle.boundary = .ok g) :
    (runStrictFlags false false w t oracle).writes = (runNS oracle).writes ∧
    (runStrictFlags false false w t oracle).seen = (runNS oracle).seen ∧
    (runStrictFlags false false w t oracle).total = (runNS oracle).total := by
  obtain ⟨hs, ht, hw⟩ := run_equiv w t oracle g hb
  exact ⟨hw, hs, ht⟩

/-- Witness for the amended C10: on a concrete input with a successful
boundary fetch the two variants deliver the same totals. -/
theorem C10_variants_agree_witness :
    (runStrictFlags false false wTrue "8" oracleDup).total = (runNS oracleDup).total ∧
    (runNS oracleDup).total = 2 :=
  ⟨(C10_variants_agree_when_boundary_ok wTrue "8" oracleDup 0 rfl).2.2, by decide⟩
